import Mathlib

/-!
Verification of the drug-level modelling core (`src/main.py`):
the concentration simulator `calculate_drug_levels` and the extrema
detector `find_local_extrema` (scipy `argrelextrema` with strict
comparators, `order=1`, `mode='clip'`).

Numbers are modelled by real numbers; schedule hours are rationals
(every Python float is a rational) truncated toward zero by `int()`.
-/

open Real

/-- Python `int()` on a rational: truncation toward zero. -/
def truncToZero (q : ℚ) : ℤ :=
  if 0 ≤ q then ⌊q⌋ else ⌈q⌉

/-- Insertion of one `(time, amount)` pair into the dict under construction:
the key is `int(time)` and an existing binding for that key is overwritten. -/
def dictInsert (d : ℤ → Option ℝ) (p : ℚ × ℝ) : ℤ → Option ℝ :=
  fun k => if k = truncToZero p.1 then some p.2 else d k

/-- `redose_dict = {int(time): amount for time, amount in redose_schedule}`:
a Python dict comprehension inserts the pairs in list order, a later entry
overwriting an earlier one with the same key. -/
def redoseDict (schedule : List (ℚ × ℝ)) : ℤ → Option ℝ :=
  schedule.foldl dictInsert (fun _ => none)

/-- One concentration track of the step loop of `calculate_drug_levels`:
`c[0] = initial_concentration`;
`c[i] = c[i-1] * 0.5 ** ((t[i] - t[i-1]) / h)`, plus the scheduled amount
when `t[i] % 24` is a key of the dict.  The time axis is `t[i] = i`. -/
noncomputable def concSeries (C0 h : ℝ) (d : ℤ → Option ℝ) : ℕ → ℝ
  | 0 => C0
  | i + 1 =>
    let decayed := concSeries C0 h d i * (0.5 : ℝ) ^ ((((i + 1 : ℕ) : ℝ) - ((i : ℕ) : ℝ)) / h)
    match d (((i + 1) % 24 : ℕ) : ℤ) with
    | some a => decayed + a
    | none => decayed

/-- `calculate_drug_levels`: returns the time axis `0..duration` and the two
concentration tracks (min and max half-life), each of length `duration + 1`. -/
noncomputable def calculate_drug_levels (C0 h_min h_max : ℝ)
    (schedule : List (ℚ × ℝ)) (duration : ℕ) :
    List ℕ × List ℝ × List ℝ :=
  (List.range (duration + 1),
   (List.range (duration + 1)).map (concSeries C0 h_min (redoseDict schedule)),
   (List.range (duration + 1)).map (concSeries C0 h_max (redoseDict schedule)))

/-- scipy `argrelextrema(data, comparator)` with the defaults `order=1`,
`mode='clip'`: index `i` is reported when `comparator(data[i], data[i-1])`
and `comparator(data[i], data[i+1])` both hold, neighbour indices clipped
into `[0, n-1]`. -/
noncomputable def argrelextrema (cmp : ℝ → ℝ → Prop) [DecidableRel cmp]
    (xs : List ℝ) : List ℕ :=
  (List.range xs.length).filter fun i =>
    decide (cmp (xs.getD i 0) (xs.getD (min (i - 1) (xs.length - 1)) 0)) &&
    decide (cmp (xs.getD i 0) (xs.getD (min (i + 1) (xs.length - 1)) 0))

/-- `find_local_extrema`: strict local minima and strict local maxima. -/
noncomputable def find_local_extrema (xs : List ℝ) : List ℕ × List ℕ :=
  (argrelextrema (· < ·) xs, argrelextrema (· > ·) xs)

/-! ### Basic step lemmas -/

lemma concSeries_zero (C0 h : ℝ) (d : ℤ → Option ℝ) : concSeries C0 h d 0 = C0 := rfl

lemma concSeries_succ (C0 h : ℝ) (d : ℤ → Option ℝ) (i : ℕ) :
    concSeries C0 h d (i + 1) =
      concSeries C0 h d i * (0.5 : ℝ) ^ ((1 : ℝ) / h) +
        (d (((i + 1) % 24 : ℕ) : ℤ)).getD 0 := by
  have hexp : (((i + 1 : ℕ) : ℝ) - ((i : ℕ) : ℝ)) = 1 := by push_cast; ring
  show (match d (((i + 1) % 24 : ℕ) : ℤ) with
    | some a =>
        concSeries C0 h d i * (0.5 : ℝ) ^ ((((i + 1 : ℕ) : ℝ) - ((i : ℕ) : ℝ)) / h) + a
    | none =>
        concSeries C0 h d i * (0.5 : ℝ) ^ ((((i + 1 : ℕ) : ℝ) - ((i : ℕ) : ℝ)) / h)) = _
  rw [hexp]
  cases hd : d (((i + 1) % 24 : ℕ) : ℤ) with
  | none => simp
  | some a => simp

lemma redoseDict_nil : redoseDict [] = fun _ => none := rfl

lemma concSeries_noRedose (C0 h : ℝ) : ∀ t : ℕ,
    concSeries C0 h (redoseDict []) t = C0 * (0.5 : ℝ) ^ ((t : ℝ) / h)
  | 0 => by simp [concSeries]
  | t + 1 => by
    rw [concSeries_succ, concSeries_noRedose C0 h t]
    show C0 * (0.5:ℝ) ^ ((t : ℝ)/h) * (0.5:ℝ) ^ ((1:ℝ)/h) + (Option.getD none 0) = _
    push_cast
    rw [Option.getD_none, add_zero, mul_assoc,
      ← Real.rpow_add (by norm_num : (0:ℝ) < 0.5), div_add_div_same]

/-! ### Access into the returned sequences -/

lemma calc_min_getD (C0 h_min h_max : ℝ) (s : List (ℚ × ℝ)) (T k : ℕ) (hk : k ≤ T) :
    ((calculate_drug_levels C0 h_min h_max s T).2.1).getD k 0 =
      concSeries C0 h_min (redoseDict s) k := by
  have hlt : k < ((List.range (T + 1)).map (concSeries C0 h_min (redoseDict s))).length := by
    simpa using Nat.lt_succ_of_le hk
  show ((List.range (T + 1)).map (concSeries C0 h_min (redoseDict s))).getD k 0 = _
  rw [List.getD_eq_getElem _ _ hlt]
  simp

lemma calc_max_getD (C0 h_min h_max : ℝ) (s : List (ℚ × ℝ)) (T k : ℕ) (hk : k ≤ T) :
    ((calculate_drug_levels C0 h_min h_max s T).2.2).getD k 0 =
      concSeries C0 h_max (redoseDict s) k := by
  have hlt : k < ((List.range (T + 1)).map (concSeries C0 h_max (redoseDict s))).length := by
    simpa using Nat.lt_succ_of_le hk
  show ((List.range (T + 1)).map (concSeries C0 h_max (redoseDict s))).getD k 0 = _
  rw [List.getD_eq_getElem _ _ hlt]
  simp

/-! ### Non-negativity -/

lemma foldl_dictInsert_nonneg (s : List (ℚ × ℝ)) :
    ∀ d : ℤ → Option ℝ, (∀ k v, d k = some v → 0 ≤ v) → (∀ p ∈ s, 0 ≤ p.2) →
      ∀ k v, s.foldl dictInsert d k = some v → 0 ≤ v := by
  induction s with
  | nil => intro d hd _ k v hkv; exact hd k v hkv
  | cons p s ih =>
    intro d hd hs k v hkv
    refine ih (dictInsert d p) ?_ (fun q hq => hs q (List.mem_cons_of_mem p hq)) k v hkv
    intro k v hkv2
    unfold dictInsert at hkv2
    by_cases hk : k = truncToZero p.1
    · rw [if_pos hk] at hkv2
      cases hkv2
      exact hs p (List.mem_cons_self p s)
    · rw [if_neg hk] at hkv2
      exact hd k v hkv2

lemma redoseDict_nonneg {s : List (ℚ × ℝ)} (hs : ∀ p ∈ s, 0 ≤ p.2) :
    ∀ k v, redoseDict s k = some v → 0 ≤ v :=
  foldl_dictInsert_nonneg s _ (fun _ _ hv => Option.noConfusion hv) hs

lemma getD_dict_nonneg {d : ℤ → Option ℝ} (hd : ∀ k v, d k = some v → 0 ≤ v) (k : ℤ) :
    (0 : ℝ) ≤ (d k).getD 0 := by
  cases hdk : d k with
  | none => simp
  | some a => simpa using hd _ a hdk

lemma concSeries_nonneg (C0 h : ℝ) (d : ℤ → Option ℝ) (hC : 0 ≤ C0)
    (hd : ∀ k v, d k = some v → 0 ≤ v) : ∀ t, 0 ≤ concSeries C0 h d t
  | 0 => hC
  | t + 1 => by
    rw [concSeries_succ]
    exact add_nonneg
      (mul_nonneg (concSeries_nonneg C0 h d hC hd t) (Real.rpow_nonneg (by norm_num) _))
      (getD_dict_nonneg hd _)

/-! ### Comparisons between tracks -/

lemma concSeries_mono_halfLife (C0 : ℝ) (ha hb : ℝ) (d : ℤ → Option ℝ) (hC : 0 ≤ C0)
    (hd : ∀ k v, d k = some v → 0 ≤ v) (hpos : 0 < ha) (hab : ha ≤ hb) :
    ∀ t, concSeries C0 ha d t ≤ concSeries C0 hb d t
  | 0 => le_refl C0
  | t + 1 => by
    rw [concSeries_succ, concSeries_succ]
    have key : (0.5 : ℝ) ^ ((1:ℝ) / ha) ≤ (0.5 : ℝ) ^ ((1:ℝ) / hb) :=
      Real.rpow_le_rpow_of_exponent_ge (by norm_num) (by norm_num)
        (one_div_le_one_div_of_le hpos hab)
    exact add_le_add_right
      (mul_le_mul (concSeries_mono_halfLife C0 ha hb d hC hd hpos hab t) key
        (Real.rpow_nonneg (by norm_num) _) (concSeries_nonneg C0 hb d hC hd t)) _

lemma concSeries_ge_noRedose (C0 h : ℝ) (d : ℤ → Option ℝ) (hC : 0 ≤ C0)
    (hd : ∀ k v, d k = some v → 0 ≤ v) :
    ∀ t, concSeries C0 h (redoseDict []) t ≤ concSeries C0 h d t
  | 0 => le_refl C0
  | t + 1 => by
    rw [concSeries_succ, concSeries_succ]
    simp only [redoseDict_nil, Option.getD_none, add_zero]
    exact le_trans
      (mul_le_mul_of_nonneg_right (concSeries_ge_noRedose C0 h d hC hd t)
        (Real.rpow_nonneg (by norm_num) _))
      (le_add_of_nonneg_right (getD_dict_nonneg hd _))

/-! ### Strict decay -/

lemma concSeries_pos (C0 h : ℝ) (hC : 0 < C0) (t : ℕ) :
    0 < concSeries C0 h (redoseDict []) t := by
  rw [concSeries_noRedose]
  exact mul_pos hC (Real.rpow_pos_of_pos (by norm_num) _)

lemma concSeries_strictAnti (C0 h : ℝ) (hC : 0 < C0) (hh : 0 < h) :
    StrictAnti (concSeries C0 h (redoseDict [])) := by
  apply strictAnti_nat_of_succ_lt
  intro t
  rw [concSeries_succ]
  simp only [redoseDict_nil, Option.getD_none, add_zero]
  exact mul_lt_of_lt_one_right (concSeries_pos C0 h hC t)
    (Real.rpow_lt_one (by norm_num) (by norm_num) (by positivity))

/-! ### Agreement between dicts -/

lemma dictInsert_agree {K : ℤ} {d1 d2 : ℤ → Option ℝ}
    (hag : ∀ k, k ≠ K → d1 k = d2 k) (p : ℚ × ℝ) :
    ∀ k, k ≠ K → dictInsert d1 p k = dictInsert d2 p k := by
  intro k hk
  unfold dictInsert
  by_cases h : k = truncToZero p.1
  · rw [if_pos h, if_pos h]
  · rw [if_neg h, if_neg h]
    exact hag k hk

lemma foldl_dictInsert_agree (s : List (ℚ × ℝ)) :
    ∀ {K : ℤ} {d1 d2 : ℤ → Option ℝ}, (∀ k, k ≠ K → d1 k = d2 k) →
      ∀ k, k ≠ K → s.foldl dictInsert d1 k = s.foldl dictInsert d2 k := by
  induction s with
  | nil => intro K d1 d2 hag k hk; exact hag k hk
  | cons p s ih => intro K d1 d2 hag k hk; exact ih (dictInsert_agree hag p) k hk

lemma dictInsert_eq_of_agree {K : ℤ} {d1 d2 : ℤ → Option ℝ}
    (hag : ∀ k, k ≠ K → d1 k = d2 k) {p : ℚ × ℝ} (hp : truncToZero p.1 = K) :
    dictInsert d1 p = dictInsert d2 p := by
  funext k
  unfold dictInsert
  by_cases h : k = truncToZero p.1
  · rw [if_pos h, if_pos h]
  · rw [if_neg h, if_neg h]
    exact hag k (fun hkK => h (hkK.trans hp.symm))

lemma redoseDict_dedup (s₁ s₂ s₃ : List (ℚ × ℝ)) (q₁ q₂ : ℚ) (a₁ a₂ : ℝ)
    (hq : truncToZero q₁ = truncToZero q₂) :
    redoseDict (s₁ ++ (q₁, a₁) :: (s₂ ++ (q₂, a₂) :: s₃)) =
      redoseDict (s₁ ++ (s₂ ++ (q₂, a₂) :: s₃)) := by
  unfold redoseDict
  rw [List.foldl_append, List.foldl_cons, List.foldl_append, List.foldl_cons,
    List.foldl_append, List.foldl_append, List.foldl_cons]
  congr 1
  refine dictInsert_eq_of_agree (K := truncToZero q₁) ?_ hq.symm
  refine foldl_dictInsert_agree s₂ ?_
  intro k hk
  unfold dictInsert
  rw [if_neg hk]

lemma redoseDict_remove_agree (s₁ s₂ : List (ℚ × ℝ)) (p : ℚ × ℝ) :
    ∀ k, k ≠ truncToZero p.1 → redoseDict (s₁ ++ p :: s₂) k = redoseDict (s₁ ++ s₂) k := by
  intro k hk
  unfold redoseDict
  rw [List.foldl_append, List.foldl_cons, List.foldl_append]
  refine foldl_dictInsert_agree s₂ ?_ k hk
  intro k2 hk2
  unfold dictInsert
  rw [if_neg hk2]

/-- The simulation only ever queries keys in `[0, 24)`, because its lookup key
is `time mod 24`. -/
lemma concSeries_congr_dict (C0 h : ℝ) (d1 d2 : ℤ → Option ℝ)
    (hag : ∀ k : ℤ, 0 ≤ k → k < 24 → d1 k = d2 k) :
    ∀ t, concSeries C0 h d1 t = concSeries C0 h d2 t
  | 0 => rfl
  | t + 1 => by
    have h1 : (0 : ℤ) ≤ (((t + 1) % 24 : ℕ) : ℤ) := Int.natCast_nonneg _
    have h2 : (((t + 1) % 24 : ℕ) : ℤ) < 24 := by
      have := Nat.mod_lt (t + 1) (show 0 < 24 by norm_num)
      exact_mod_cast this
    rw [concSeries_succ, concSeries_succ, concSeries_congr_dict C0 h d1 d2 hag t,
      hag _ h1 h2]

/-! ### Evaluating small dicts -/

lemma redoseDict_single (q : ℚ) (a : ℝ) (k : ℤ) :
    redoseDict [(q, a)] k = if k = truncToZero q then some a else none := rfl

lemma truncToZero_eight : truncToZero (8 : ℚ) = 8 := by
  norm_num [truncToZero]

lemma truncToZero_zero : truncToZero (0 : ℚ) = 0 := by
  norm_num [truncToZero]

lemma redoseDict_eight (D : ℝ) (i : ℕ) :
    redoseDict [((8 : ℚ), D)] (((i + 1) % 24 : ℕ) : ℤ) =
      if (i + 1) % 24 = 8 then some D else none := by
  rw [redoseDict_single, truncToZero_eight]
  by_cases h : (i + 1) % 24 = 8
  · rw [if_pos h, if_pos (by exact_mod_cast h)]
  · rw [if_neg h, if_neg (fun hc => h (by exact_mod_cast hc))]

lemma redoseDict_zero (D : ℝ) (i : ℕ) :
    redoseDict [((0 : ℚ), D)] (((i + 1) % 24 : ℕ) : ℤ) =
      if (i + 1) % 24 = 0 then some D else none := by
  rw [redoseDict_single, truncToZero_zero]
  by_cases h : (i + 1) % 24 = 0
  · rw [if_pos h, if_pos (by exact_mod_cast h)]
  · rw [if_neg h, if_neg (fun hc => h (by exact_mod_cast hc))]

/-! ### Characterising the reported extrema -/

lemma mem_argrelextrema (cmp : ℝ → ℝ → Prop) [DecidableRel cmp] (hirr : ∀ x, ¬cmp x x)
    (xs : List ℝ) (i : ℕ) :
    i ∈ argrelextrema cmp xs ↔
      1 ≤ i ∧ i + 1 < xs.length ∧
        cmp (xs.getD i 0) (xs.getD (i - 1) 0) ∧ cmp (xs.getD i 0) (xs.getD (i + 1) 0) := by
  unfold argrelextrema
  rw [List.mem_filter, List.mem_range]
  simp only [Bool.and_eq_true, decide_eq_true_eq]
  constructor
  · rintro ⟨hi, hminus, hplus⟩
    have hi1 : 1 ≤ i := by
      rcases Nat.eq_zero_or_pos i with h0 | h1
      · subst h0
        rw [show min (0 - 1) (xs.length - 1) = 0 by omega] at hminus
        exact absurd hminus (hirr _)
      · exact h1
    have hi2 : i + 1 < xs.length := by
      rcases lt_or_ge (i + 1) xs.length with hlt | hge
      · exact hlt
      · exfalso
        rw [show min (i + 1) (xs.length - 1) = i by omega] at hplus
        exact hirr _ hplus
    rw [show min (i - 1) (xs.length - 1) = i - 1 by omega] at hminus
    rw [show min (i + 1) (xs.length - 1) = i + 1 by omega] at hplus
    exact ⟨hi1, hi2, hminus, hplus⟩
  · rintro ⟨hi1, hi2, hminus, hplus⟩
    refine ⟨by omega, ?_, ?_⟩
    · rw [show min (i - 1) (xs.length - 1) = i - 1 by omega]
      exact hminus
    · rw [show min (i + 1) (xs.length - 1) = i + 1 by omega]
      exact hplus

/-! ## Claim theorems -/

/-- Claim C1: for every valid input (positive half-lives, positive integer
duration), `calculate_drug_levels` returns three sequences of length exactly
`duration + 1`, and the time axis satisfies `timePoints[k] = k` for every
`k ≤ duration`. -/
theorem simulate_shape (C0 h_min h_max : ℝ) (s : List (ℚ × ℝ)) (T : ℕ)
    (_hmin : 0 < h_min) (_hmax : 0 < h_max) (_hT : 0 < T) :
    (calculate_drug_levels C0 h_min h_max s T).1.length = T + 1 ∧
    (calculate_drug_levels C0 h_min h_max s T).2.1.length = T + 1 ∧
    (calculate_drug_levels C0 h_min h_max s T).2.2.length = T + 1 ∧
    ∀ k, k ≤ T → (calculate_drug_levels C0 h_min h_max s T).1.getD k 0 = k := by
  refine ⟨by simp [calculate_drug_levels], by simp [calculate_drug_levels],
    by simp [calculate_drug_levels], ?_⟩
  intro k hk
  show (List.range (T + 1)).getD k 0 = k
  rw [List.getD_eq_getElem _ _ (by simpa using Nat.lt_succ_of_le hk)]
  simp

/-- Witness for claim C1 at concrete inputs. -/
theorem simulate_shape_witness :
    (0 : ℝ) < 6 ∧ (0 : ℝ) < 12 ∧ 0 < 72 ∧
      ((calculate_drug_levels 100 6 12 [] 72).1.length = 72 + 1 ∧
       (calculate_drug_levels 100 6 12 [] 72).2.1.length = 72 + 1 ∧
       (calculate_drug_levels 100 6 12 [] 72).2.2.length = 72 + 1 ∧
       ∀ k, k ≤ 72 → (calculate_drug_levels 100 6 12 [] 72).1.getD k 0 = k) :=
  ⟨by norm_num, by norm_num, by norm_num,
    simulate_shape 100 6 12 [] 72 (by norm_num) (by norm_num) (by norm_num)⟩

/-- Claim C2: with equal half-life bounds and an empty redose schedule, the two
concentration series coincide and each equals the closed form
`C0 * 0.5 ^ (t / h)` at every time point `t ≤ duration`. -/
theorem simulate_equal_halfLives_closed_form (C0 h : ℝ) (T : ℕ) (_hh : 0 < h) (_hT : 0 < T) :
    (calculate_drug_levels C0 h h [] T).2.1 = (calculate_drug_levels C0 h h [] T).2.2 ∧
    ∀ t, t ≤ T →
      ((calculate_drug_levels C0 h h [] T).2.1).getD t 0 = C0 * (0.5 : ℝ) ^ ((t : ℝ) / h) ∧
      ((calculate_drug_levels C0 h h [] T).2.2).getD t 0 = C0 * (0.5 : ℝ) ^ ((t : ℝ) / h) := by
  refine ⟨rfl, ?_⟩
  intro t ht
  rw [calc_min_getD C0 h h [] T t ht, calc_max_getD C0 h h [] T t ht,
    concSeries_noRedose]
  exact ⟨rfl, rfl⟩

/-- Witness for claim C2 at concrete inputs. -/
theorem simulate_equal_halfLives_closed_form_witness :
    (0 : ℝ) < 6 ∧ 0 < 24 ∧
      ((calculate_drug_levels 100 6 6 [] 24).2.1 = (calculate_drug_levels 100 6 6 [] 24).2.2 ∧
       ∀ t, t ≤ 24 →
         ((calculate_drug_levels 100 6 6 [] 24).2.1).getD t 0 = 100 * (0.5 : ℝ) ^ ((t : ℝ) / 6) ∧
         ((calculate_drug_levels 100 6 6 [] 24).2.2).getD t 0 = 100 * (0.5 : ℝ) ^ ((t : ℝ) / 6)) :=
  ⟨by norm_num, by norm_num,
    simulate_equal_halfLives_closed_form 100 6 24 (by norm_num) (by norm_num)⟩

/-- At every index `24k` (`k ≥ 1`) a schedule with the single entry `(0, D)`
yields at least `D` more than the decay-only baseline. -/
lemma concSeries_zeroHour_ge (C0 h D : ℝ) (hD : 0 ≤ D) (hC : 0 ≤ C0) (k : ℕ) (hk : 1 ≤ k) :
    concSeries C0 h (redoseDict []) (24 * k) + D ≤
      concSeries C0 h (redoseDict [((0 : ℚ), D)]) (24 * k) := by
  have hd0 : ∀ k v, redoseDict [((0 : ℚ), D)] k = some v → 0 ≤ v := by
    refine redoseDict_nonneg ?_
    intro p hp
    rcases List.mem_singleton.mp hp with rfl
    exact hD
  obtain ⟨m, hm⟩ : ∃ m, 24 * k = m + 1 := ⟨24 * k - 1, by omega⟩
  have hmod : (m + 1) % 24 = 0 := by omega
  rw [hm, concSeries_succ, concSeries_succ]
  simp only [redoseDict_nil, Option.getD_none, add_zero]
  rw [redoseDict_zero, if_pos hmod, Option.getD_some]
  exact add_le_add_right
    (mul_le_mul_of_nonneg_right (concSeries_ge_noRedose C0 h _ hC hd0 m)
      (Real.rpow_nonneg (by norm_num) _)) D

/-- Claim C3: at every step `i` from 1 to `duration`, the simulator applies a
redose to BOTH returned series — adding the schedule map’s amount for that
hour — exactly when `timePoints[i] mod 24` is a key of the redose dict, for
every schedule; consequently an entry at hour 8 fires exactly at absolute
times `≡ 8 (mod 24)` (8, 32, 56, …), an entry at hour 0 raises every index
`24k ≤ duration` (`k ≥ 1`) by at least `D` over the decay-only baseline, and
index 0 never receives a scheduled redose: it holds exactly the initial
concentration, whatever the schedule. -/
theorem simulate_redose_mod24 (C0 h_min h_max D : ℝ) (T : ℕ)
    (_hmin : 0 < h_min) (_hmax : 0 < h_max) (hD : 0 ≤ D) (hC : 0 ≤ C0) :
    (∀ (s : List (ℚ × ℝ)) (i : ℕ), 1 ≤ i → i ≤ T →
      (∀ a : ℝ, redoseDict s ((i % 24 : ℕ) : ℤ) = some a →
        ((calculate_drug_levels C0 h_min h_max s T).2.1).getD i 0 =
            ((calculate_drug_levels C0 h_min h_max s T).2.1).getD (i - 1) 0 *
              (0.5 : ℝ) ^ ((1 : ℝ) / h_min) + a ∧
          ((calculate_drug_levels C0 h_min h_max s T).2.2).getD i 0 =
            ((calculate_drug_levels C0 h_min h_max s T).2.2).getD (i - 1) 0 *
              (0.5 : ℝ) ^ ((1 : ℝ) / h_max) + a) ∧
      (redoseDict s ((i % 24 : ℕ) : ℤ) = none →
        ((calculate_drug_levels C0 h_min h_max s T).2.1).getD i 0 =
            ((calculate_drug_levels C0 h_min h_max s T).2.1).getD (i - 1) 0 *
              (0.5 : ℝ) ^ ((1 : ℝ) / h_min) ∧
          ((calculate_drug_levels C0 h_min h_max s T).2.2).getD i 0 =
            ((calculate_drug_levels C0 h_min h_max s T).2.2).getD (i - 1) 0 *
              (0.5 : ℝ) ^ ((1 : ℝ) / h_max))) ∧
    (∀ i : ℕ, 1 ≤ i → i ≤ T →
      ((calculate_drug_levels C0 h_min h_max [((8 : ℚ), D)] T).2.1).getD i 0 =
          ((calculate_drug_levels C0 h_min h_max [((8 : ℚ), D)] T).2.1).getD (i - 1) 0 *
            (0.5 : ℝ) ^ ((1 : ℝ) / h_min) + (if i % 24 = 8 then D else 0) ∧
        ((calculate_drug_levels C0 h_min h_max [((8 : ℚ), D)] T).2.2).getD i 0 =
          ((calculate_drug_levels C0 h_min h_max [((8 : ℚ), D)] T).2.2).getD (i - 1) 0 *
            (0.5 : ℝ) ^ ((1 : ℝ) / h_max) + (if i % 24 = 8 then D else 0)) ∧
    (∀ k : ℕ, 1 ≤ k → 24 * k ≤ T →
      ((calculate_drug_levels C0 h_min h_max [] T).2.1).getD (24 * k) 0 + D ≤
          ((calculate_drug_levels C0 h_min h_max [((0 : ℚ), D)] T).2.1).getD (24 * k) 0 ∧
        ((calculate_drug_levels C0 h_min h_max [] T).2.2).getD (24 * k) 0 + D ≤
          ((calculate_drug_levels C0 h_min h_max [((0 : ℚ), D)] T).2.2).getD (24 * k) 0) ∧
    (∀ s : List (ℚ × ℝ),
      ((calculate_drug_levels C0 h_min h_max s T).2.1).getD 0 0 = C0 ∧
      ((calculate_drug_levels C0 h_min h_max s T).2.2).getD 0 0 = C0) := by
  refine ⟨?_, ?_, ?_, ?_⟩
  · intro s i hi1 hiT
    obtain ⟨m, rfl⟩ : ∃ m, i = m + 1 := ⟨i - 1, by omega⟩
    have hm : m ≤ T := by omega
    have hmm : m + 1 - 1 = m := by omega
    rw [hmm, calc_min_getD C0 h_min h_max s T (m + 1) hiT,
      calc_min_getD C0 h_min h_max s T m hm,
      calc_max_getD C0 h_min h_max s T (m + 1) hiT,
      calc_max_getD C0 h_min h_max s T m hm]
    constructor
    · intro a hkey
      rw [concSeries_succ, concSeries_succ, hkey]
      simp
    · intro hkey
      rw [concSeries_succ, concSeries_succ, hkey]
      simp
  · intro i hi1 hiT
    obtain ⟨m, rfl⟩ : ∃ m, i = m + 1 := ⟨i - 1, by omega⟩
    have hm : m ≤ T := by omega
    have hmm : m + 1 - 1 = m := by omega
    rw [hmm, calc_min_getD C0 h_min h_max _ T (m + 1) hiT,
      calc_min_getD C0 h_min h_max _ T m hm,
      calc_max_getD C0 h_min h_max _ T (m + 1) hiT,
      calc_max_getD C0 h_min h_max _ T m hm,
      concSeries_succ, concSeries_succ, redoseDict_eight]
    by_cases hcase : (m + 1) % 24 = 8
    · simp [hcase]
    · simp [hcase]
  · intro k hk1 hkT
    rw [calc_min_getD C0 h_min h_max [] T (24 * k) hkT,
      calc_min_getD C0 h_min h_max _ T (24 * k) hkT,
      calc_max_getD C0 h_min h_max [] T (24 * k) hkT,
      calc_max_getD C0 h_min h_max _ T (24 * k) hkT]
    exact ⟨concSeries_zeroHour_ge C0 h_min D hD hC k hk1,
      concSeries_zeroHour_ge C0 h_max D hD hC k hk1⟩
  · intro s
    rw [calc_min_getD C0 h_min h_max s T 0 (Nat.zero_le T),
      calc_max_getD C0 h_min h_max s T 0 (Nat.zero_le T)]
    exact ⟨rfl, rfl⟩

/-- Witness for claim C3 at concrete inputs. -/
theorem simulate_redose_mod24_witness :
    (0 : ℝ) < 6 ∧ (0 : ℝ) < 12 ∧ (0 : ℝ) ≤ 50 ∧ (0 : ℝ) ≤ 100 ∧
      ((∀ (s : List (ℚ × ℝ)) (i : ℕ), 1 ≤ i → i ≤ 72 →
        (∀ a : ℝ, redoseDict s ((i % 24 : ℕ) : ℤ) = some a →
          ((calculate_drug_levels 100 6 12 s 72).2.1).getD i 0 =
              ((calculate_drug_levels 100 6 12 s 72).2.1).getD (i - 1) 0 *
                (0.5 : ℝ) ^ ((1 : ℝ) / 6) + a ∧
            ((calculate_drug_levels 100 6 12 s 72).2.2).getD i 0 =
              ((calculate_drug_levels 100 6 12 s 72).2.2).getD (i - 1) 0 *
                (0.5 : ℝ) ^ ((1 : ℝ) / 12) + a) ∧
        (redoseDict s ((i % 24 : ℕ) : ℤ) = none →
          ((calculate_drug_levels 100 6 12 s 72).2.1).getD i 0 =
              ((calculate_drug_levels 100 6 12 s 72).2.1).getD (i - 1) 0 *
                (0.5 : ℝ) ^ ((1 : ℝ) / 6) ∧
            ((calculate_drug_levels 100 6 12 s 72).2.2).getD i 0 =
              ((calculate_drug_levels 100 6 12 s 72).2.2).getD (i - 1) 0 *
                (0.5 : ℝ) ^ ((1 : ℝ) / 12))) ∧
       (∀ i : ℕ, 1 ≤ i → i ≤ 72 →
        ((calculate_drug_levels 100 6 12 [((8 : ℚ), 50)] 72).2.1).getD i 0 =
            ((calculate_drug_levels 100 6 12 [((8 : ℚ), 50)] 72).2.1).getD (i - 1) 0 *
              (0.5 : ℝ) ^ ((1 : ℝ) / 6) + (if i % 24 = 8 then 50 else 0) ∧
          ((calculate_drug_levels 100 6 12 [((8 : ℚ), 50)] 72).2.2).getD i 0 =
            ((calculate_drug_levels 100 6 12 [((8 : ℚ), 50)] 72).2.2).getD (i - 1) 0 *
              (0.5 : ℝ) ^ ((1 : ℝ) / 12) + (if i % 24 = 8 then 50 else 0)) ∧
       (∀ k : ℕ, 1 ≤ k → 24 * k ≤ 72 →
        ((calculate_drug_levels 100 6 12 [] 72).2.1).getD (24 * k) 0 + 50 ≤
            ((calculate_drug_levels 100 6 12 [((0 : ℚ), 50)] 72).2.1).getD (24 * k) 0 ∧
          ((calculate_drug_levels 100 6 12 [] 72).2.2).getD (24 * k) 0 + 50 ≤
            ((calculate_drug_levels 100 6 12 [((0 : ℚ), 50)] 72).2.2).getD (24 * k) 0) ∧
       (∀ s : List (ℚ × ℝ),
        ((calculate_drug_levels 100 6 12 s 72).2.1).getD 0 0 = 100 ∧
        ((calculate_drug_levels 100 6 12 s 72).2.2).getD 0 0 = 100)) :=
  ⟨by norm_num, by norm_num, by norm_num, by norm_num,
    simulate_redose_mod24 100 6 12 50 72 (by norm_num) (by norm_num) (by norm_num)
      (by norm_num)⟩

/-- Claim C4: `find_local_extrema` reports an index `i` as a local minimum
exactly when `i` is interior (`1 ≤ i ≤ length - 2`) and the value is strictly
below both neighbours, as a local maximum exactly when it is strictly above
both neighbours; endpoints and plateau points are never reported and the two
index sets are disjoint. -/
theorem find_local_extrema_spec (xs : List ℝ) :
    (∀ i, i ∈ (find_local_extrema xs).1 ↔
      1 ≤ i ∧ i + 1 < xs.length ∧
        xs.getD i 0 < xs.getD (i - 1) 0 ∧ xs.getD i 0 < xs.getD (i + 1) 0) ∧
    (∀ i, i ∈ (find_local_extrema xs).2 ↔
      1 ≤ i ∧ i + 1 < xs.length ∧
        xs.getD (i - 1) 0 < xs.getD i 0 ∧ xs.getD (i + 1) 0 < xs.getD i 0) ∧
    (0 ∉ (find_local_extrema xs).1 ∧ 0 ∉ (find_local_extrema xs).2 ∧
      xs.length - 1 ∉ (find_local_extrema xs).1 ∧
      xs.length - 1 ∉ (find_local_extrema xs).2) ∧
    (∀ i, (xs.getD i 0 = xs.getD (i - 1) 0 ∨ xs.getD i 0 = xs.getD (i + 1) 0) →
      i ∉ (find_local_extrema xs).1 ∧ i ∉ (find_local_extrema xs).2) ∧
    (∀ i, ¬(i ∈ (find_local_extrema xs).1 ∧ i ∈ (find_local_extrema xs).2)) := by
  have hmin : ∀ i, i ∈ (find_local_extrema xs).1 ↔
      1 ≤ i ∧ i + 1 < xs.length ∧
        xs.getD i 0 < xs.getD (i - 1) 0 ∧ xs.getD i 0 < xs.getD (i + 1) 0 :=
    fun i => mem_argrelextrema (· < ·) (fun x => lt_irrefl x) xs i
  have hmax : ∀ i, i ∈ (find_local_extrema xs).2 ↔
      1 ≤ i ∧ i + 1 < xs.length ∧
        xs.getD (i - 1) 0 < xs.getD i 0 ∧ xs.getD (i + 1) 0 < xs.getD i 0 :=
    fun i => mem_argrelextrema (· > ·) (fun x => lt_irrefl x) xs i
  refine ⟨hmin, hmax, ⟨?_, ?_, ?_, ?_⟩, ?_, ?_⟩
  · intro hmem
    exact absurd ((hmin 0).mp hmem).1 (by norm_num)
  · intro hmem
    exact absurd ((hmax 0).mp hmem).1 (by norm_num)
  · intro hmem
    obtain ⟨h1, h2, -, -⟩ := (hmin _).mp hmem
    omega
  · intro hmem
    obtain ⟨h1, h2, -, -⟩ := (hmax _).mp hmem
    omega
  · intro i hplateau
    constructor
    · intro hmem
      obtain ⟨-, -, hl, hr⟩ := (hmin i).mp hmem
      rcases hplateau with he | he
      · exact absurd hl (by rw [he]; exact lt_irrefl _)
      · exact absurd hr (by rw [he]; exact lt_irrefl _)
    · intro hmem
      obtain ⟨-, -, hl, hr⟩ := (hmax i).mp hmem
      rcases hplateau with he | he
      · exact absurd hl (by rw [he]; exact lt_irrefl _)
      · exact absurd hr (by rw [he]; exact lt_irrefl _)
  · rintro i ⟨hm1, hm2⟩
    obtain ⟨-, -, hl1, -⟩ := (hmin i).mp hm1
    obtain ⟨-, -, hl2, -⟩ := (hmax i).mp hm2
    exact lt_asymm hl1 hl2

/-- Witness for claim C4 on the concrete series `[1, 3, 2, 4, 1]`. -/
theorem find_local_extrema_spec_witness :
    2 ∈ (find_local_extrema [1, 3, 2, 4, 1]).1 ∧
    1 ∈ (find_local_extrema [1, 3, 2, 4, 1]).2 ∧
    3 ∈ (find_local_extrema [1, 3, 2, 4, 1]).2 ∧
    0 ∉ (find_local_extrema [1, 3, 2, 4, 1]).1 :=
  ⟨((find_local_extrema_spec [1, 3, 2, 4, 1]).1 2).mpr
      (by norm_num [List.getD_cons_zero, List.getD_cons_succ]),
   ((find_local_extrema_spec [1, 3, 2, 4, 1]).2.1 1).mpr
      (by norm_num [List.getD_cons_zero, List.getD_cons_succ]),
   ((find_local_extrema_spec [1, 3, 2, 4, 1]).2.1 3).mpr
      (by norm_num [List.getD_cons_zero, List.getD_cons_succ]),
   (find_local_extrema_spec [1, 3, 2, 4, 1]).2.2.1.1⟩

/-- Claim C5: with an empty redose schedule, positive initial concentration and
positive half-lives, both returned concentration series are strictly
decreasing. -/
theorem simulate_noRedose_strictly_decreasing (C0 h_min h_max : ℝ) (T : ℕ)
    (hC : 0 < C0) (h1 : 0 < h_min) (h2 : 0 < h_max) (_hT : 0 < T) :
    ((calculate_drug_levels C0 h_min h_max [] T).2.1).Pairwise (· > ·) ∧
    ((calculate_drug_levels C0 h_min h_max [] T).2.2).Pairwise (· > ·) := by
  constructor
  · show ((List.range (T + 1)).map (concSeries C0 h_min (redoseDict []))).Pairwise (· > ·)
    rw [List.pairwise_map]
    exact (List.pairwise_lt_range _).imp
      (fun hab => concSeries_strictAnti C0 h_min hC h1 hab)
  · show ((List.range (T + 1)).map (concSeries C0 h_max (redoseDict []))).Pairwise (· > ·)
    rw [List.pairwise_map]
    exact (List.pairwise_lt_range _).imp
      (fun hab => concSeries_strictAnti C0 h_max hC h2 hab)

/-- Witness for claim C5 at concrete inputs. -/
theorem simulate_noRedose_strictly_decreasing_witness :
    (0 : ℝ) < 100 ∧ (0 : ℝ) < 6 ∧ (0 : ℝ) < 12 ∧ 0 < 72 ∧
      (((calculate_drug_levels 100 6 12 [] 72).2.1).Pairwise (· > ·) ∧
       ((calculate_drug_levels 100 6 12 [] 72).2.2).Pairwise (· > ·)) :=
  ⟨by norm_num, by norm_num, by norm_num, by norm_num,
    simulate_noRedose_strictly_decreasing 100 6 12 72 (by norm_num) (by norm_num)
      (by norm_num) (by norm_num)⟩

/-- Claim C6: both core functions are total over their stated domains: the
simulator always yields three sequences of the documented length, and a series
too short to have interior points yields two empty extrema sets. -/
theorem core_total_and_short_series (C0 h_min h_max : ℝ) (s : List (ℚ × ℝ)) (T : ℕ)
    (_h1 : 0 < h_min) (_h2 : 0 < h_max) (_hT : 0 < T) :
    (∃ tp cmin cmax, calculate_drug_levels C0 h_min h_max s T = (tp, cmin, cmax) ∧
        tp.length = T + 1 ∧ cmin.length = T + 1 ∧ cmax.length = T + 1) ∧
    (∀ xs : List ℝ, xs.length < 3 → find_local_extrema xs = ([], [])) := by
  constructor
  · exact ⟨_, _, _, rfl, by simp [calculate_drug_levels],
      by simp [calculate_drug_levels], by simp [calculate_drug_levels]⟩
  · intro xs hlen
    have hempty : ∀ (cmp : ℝ → ℝ → Prop) (_ : DecidableRel cmp), (∀ x, ¬cmp x x) →
        argrelextrema cmp xs = [] := by
      intro cmp hdec hirr
      rw [List.eq_nil_iff_forall_not_mem]
      intro i hi
      obtain ⟨ha, hb, -, -⟩ := (mem_argrelextrema cmp hirr xs i).mp hi
      omega
    show (argrelextrema (· < ·) xs, argrelextrema (· > ·) xs) = ([], [])
    rw [hempty (· < ·) inferInstance (fun x => lt_irrefl x),
      hempty (· > ·) inferInstance (fun x => lt_irrefl x)]

/-- Witness for claim C6 at concrete inputs. -/
theorem core_total_and_short_series_witness :
    (0 : ℝ) < 6 ∧ (0 : ℝ) < 12 ∧ 0 < 72 ∧
      ((∃ tp cmin cmax, calculate_drug_levels 100 6 12 [((8 : ℚ), 50)] 72 = (tp, cmin, cmax) ∧
          tp.length = 72 + 1 ∧ cmin.length = 72 + 1 ∧ cmax.length = 72 + 1) ∧
       (∀ xs : List ℝ, xs.length < 3 → find_local_extrema xs = ([], []))) :=
  ⟨by norm_num, by norm_num, by norm_num,
    core_total_and_short_series 100 6 12 [((8 : ℚ), 50)] 72 (by norm_num) (by norm_num)
      (by norm_num)⟩

/-- Claim C7: under the caller's precondition `0 < halfLifeMin < halfLifeMax`,
with non-negative initial concentration and non-negative redose amounts, the
min-half-life series is elementwise at most the max-half-life series. -/
theorem simulate_min_le_max (C0 h_min h_max : ℝ) (s : List (ℚ × ℝ)) (T : ℕ)
    (hC : 0 ≤ C0) (hs : ∀ p ∈ s, 0 ≤ p.2) (h1 : 0 < h_min) (h12 : h_min < h_max) :
    ∀ k, k ≤ T →
      ((calculate_drug_levels C0 h_min h_max s T).2.1).getD k 0 ≤
        ((calculate_drug_levels C0 h_min h_max s T).2.2).getD k 0 := by
  intro k hk
  rw [calc_min_getD C0 h_min h_max s T k hk, calc_max_getD C0 h_min h_max s T k hk]
  exact concSeries_mono_halfLife C0 h_min h_max (redoseDict s) hC
    (redoseDict_nonneg hs) h1 h12.le k

/-- Witness for claim C7 at concrete inputs. -/
theorem simulate_min_le_max_witness :
    (0 : ℝ) ≤ 100 ∧ (∀ p ∈ [((8 : ℚ), (50 : ℝ))], 0 ≤ p.2) ∧ (0 : ℝ) < 6 ∧ (6 : ℝ) < 12 ∧
      ∀ k, k ≤ 72 →
        ((calculate_drug_levels 100 6 12 [((8 : ℚ), 50)] 72).2.1).getD k 0 ≤
          ((calculate_drug_levels 100 6 12 [((8 : ℚ), 50)] 72).2.2).getD k 0 :=
  ⟨by norm_num, by simp, by norm_num, by norm_num,
    simulate_min_le_max 100 6 12 [((8 : ℚ), 50)] 72 (by norm_num) (by simp)
      (by norm_num) (by norm_num)⟩

/-- Claim C8: with non-negative initial concentration, positive half-lives and
non-negative redose amounts, every value in both returned series is
non-negative. -/
theorem simulate_nonneg (C0 h_min h_max : ℝ) (s : List (ℚ × ℝ)) (T : ℕ)
    (hC : 0 ≤ C0) (_h1 : 0 < h_min) (_h2 : 0 < h_max) (hs : ∀ p ∈ s, 0 ≤ p.2) :
    (∀ x ∈ (calculate_drug_levels C0 h_min h_max s T).2.1, 0 ≤ x) ∧
    (∀ x ∈ (calculate_drug_levels C0 h_min h_max s T).2.2, 0 ≤ x) := by
  constructor
  · intro x hx
    obtain ⟨i, -, rfl⟩ :=
      List.mem_map.mp (show x ∈ (List.range (T + 1)).map
        (concSeries C0 h_min (redoseDict s)) from hx)
    exact concSeries_nonneg C0 h_min (redoseDict s) hC (redoseDict_nonneg hs) i
  · intro x hx
    obtain ⟨i, -, rfl⟩ :=
      List.mem_map.mp (show x ∈ (List.range (T + 1)).map
        (concSeries C0 h_max (redoseDict s)) from hx)
    exact concSeries_nonneg C0 h_max (redoseDict s) hC (redoseDict_nonneg hs) i

/-- Witness for claim C8 at concrete inputs. -/
theorem simulate_nonneg_witness :
    (0 : ℝ) ≤ 100 ∧ (0 : ℝ) < 6 ∧ (0 : ℝ) < 12 ∧ (∀ p ∈ [((8 : ℚ), (50 : ℝ))], 0 ≤ p.2) ∧
      ((∀ x ∈ (calculate_drug_levels 100 6 12 [((8 : ℚ), 50)] 72).2.1, 0 ≤ x) ∧
       (∀ x ∈ (calculate_drug_levels 100 6 12 [((8 : ℚ), 50)] 72).2.2, 0 ≤ x)) :=
  ⟨by norm_num, by norm_num, by norm_num, by simp,
    simulate_nonneg 100 6 12 [((8 : ℚ), 50)] 72 (by norm_num) (by norm_num) (by norm_num)
      (by simp)⟩

/-- Claim C9: duplicate hours collapse with map semantics: an earlier schedule
entry whose truncated hour equals that of a later entry can be removed without
changing the output of the simulator. -/
theorem simulate_duplicate_hours_last_wins (C0 h_min h_max : ℝ) (T : ℕ)
    (s₁ s₂ s₃ : List (ℚ × ℝ)) (q₁ q₂ : ℚ) (a₁ a₂ : ℝ)
    (hq : truncToZero q₁ = truncToZero q₂) :
    calculate_drug_levels C0 h_min h_max (s₁ ++ (q₁, a₁) :: (s₂ ++ (q₂, a₂) :: s₃)) T =
      calculate_drug_levels C0 h_min h_max (s₁ ++ (s₂ ++ (q₂, a₂) :: s₃)) T := by
  unfold calculate_drug_levels
  rw [redoseDict_dedup s₁ s₂ s₃ q₁ q₂ a₁ a₂ hq]

/-- Witness for claim C9 at concrete inputs: `[(8, 50), (8, 30)]` gives the same
output as `[(8, 30)]`. -/
theorem simulate_duplicate_hours_last_wins_witness :
    truncToZero (8 : ℚ) = truncToZero (8 : ℚ) ∧
      calculate_drug_levels 100 6 12 ([] ++ ((8 : ℚ), (50 : ℝ)) :: ([] ++ ((8 : ℚ), (30 : ℝ)) :: [])) 72 =
        calculate_drug_levels 100 6 12 ([] ++ ([] ++ ((8 : ℚ), (30 : ℝ)) :: [])) 72 :=
  ⟨rfl, simulate_duplicate_hours_last_wins 100 6 12 72 [] [] [] 8 8 50 30 rfl⟩

/-- Claim C10: a schedule entry whose `int()`-truncated hour lies outside
`0..23` never affects the output: the simulator returns exactly the same three
sequences as with that entry removed, because the lookup key `time mod 24` is
always in `0..23`. -/
theorem simulate_out_of_range_entry_ignored (C0 h_min h_max : ℝ) (T : ℕ)
    (s₁ s₂ : List (ℚ × ℝ)) (p : ℚ × ℝ)
    (hp : truncToZero p.1 < 0 ∨ 24 ≤ truncToZero p.1) :
    calculate_drug_levels C0 h_min h_max (s₁ ++ p :: s₂) T =
      calculate_drug_levels C0 h_min h_max (s₁ ++ s₂) T := by
  have hag : ∀ k : ℤ, 0 ≤ k → k < 24 →
      redoseDict (s₁ ++ p :: s₂) k = redoseDict (s₁ ++ s₂) k := by
    intro k hk0 hk24
    exact redoseDict_remove_agree s₁ s₂ p k (by omega)
  have hfun : ∀ h : ℝ, concSeries C0 h (redoseDict (s₁ ++ p :: s₂)) =
      concSeries C0 h (redoseDict (s₁ ++ s₂)) := by
    intro h
    funext t
    exact concSeries_congr_dict C0 h _ _ hag t
  unfold calculate_drug_levels
  rw [hfun h_min, hfun h_max]

/-- Witness for claim C10 at concrete inputs: the entry `(25, 50)` (hour 25,
outside `0..23`) is ignored. -/
theorem simulate_out_of_range_entry_ignored_witness :
    (truncToZero ((25 : ℚ), (50 : ℝ)).1 < 0 ∨ 24 ≤ truncToZero ((25 : ℚ), (50 : ℝ)).1) ∧
      calculate_drug_levels 100 6 12 ([((8 : ℚ), (40 : ℝ))] ++ ((25 : ℚ), (50 : ℝ)) :: []) 72 =
        calculate_drug_levels 100 6 12 ([((8 : ℚ), (40 : ℝ))] ++ []) 72 :=
  ⟨Or.inr (by norm_num [truncToZero]),
    simulate_out_of_range_entry_ignored 100 6 12 72 [((8 : ℚ), 40)] [] ((25 : ℚ), (50 : ℝ))
      (Or.inr (by norm_num [truncToZero]))⟩
